import Mathlib

/-!
Shallow embedding of the action-timing and interruption engine of
`src/eldengym/env.py` (class `EldenGymEnv`), together with theorems
settling the specification claims about it.

Modelling conventions:
* Python `float` time values and durations are embedded as `ℚ`; every
  constant of the source is exactly representable and no claim depends on
  rounding.
* Each call of the wall clock `time()` in the source is an input of the
  model: the step function takes one timestamp per call site, and the poll
  loop takes a list of per-iteration timestamps.
* Reads of `self.client.player_animation_id` are inputs (`ℤ`): one per
  call site.
* Calls to the external collaborators (`client.send_key`,
  `client.set_game_speed`, `client.get_frame`) are counted in the result so
  that the observable-side-effect claims can be stated.
* Branches the source would abort with an exception (`KeyError` on a
  missing catalog id, `TypeError` on `None` arithmetic) are marked in
  comments; they return a fixed fallback value and are unreachable in the
  well-formed states the claims quantify over.
-/

/-- Lifecycle of an action, mirroring `ActionState` (env.py lines 9-14). -/
inductive ActionState where
  | idle
  | executing
  | completed
  | interrupted
deriving DecidableEq, Repr

/-- Category of an action, mirroring `ActionType` (env.py lines 16-21). -/
inductive ActionType where
  | instant
  | movement
  | combat
  | dodge
deriving DecidableEq, Repr

/-- Animation phase, mirroring `AnimationPhase` (env.py lines 23-28). -/
inductive AnimationPhase where
  | startup
  | active
  | recovery
  | idle
deriving DecidableEq, Repr

/-- Phase breakdown of an action: the `phases` dict of a catalog entry when
it is non-empty (env.py lines 118-139); every non-empty `phases` dict of the
source has exactly these three keys. -/
structure Phases where
  startup : ℚ
  active : ℚ
  recovery : ℚ
deriving DecidableEq, Repr

/-- One catalog entry of `_discrete_action_map` (env.py lines 115-140);
`phases = none` embeds the empty `phases` dict `{}`. -/
structure ActionData where
  name : String
  type : ActionType
  duration : ℚ
  interruptible : Bool
  phases : Option Phases
deriving DecidableEq, Repr

/-- The catalog entries of `_discrete_action_map` (env.py lines 115-140), in
the order of the dict keys 0..13. -/
def discreteActionList : List ActionData :=
  [ ⟨"no-op", ActionType.instant, 0, true, none⟩,
    ⟨"forward", ActionType.movement, 0.1, true, none⟩,
    ⟨"backward", ActionType.movement, 0.1, true, none⟩,
    ⟨"left", ActionType.movement, 0.1, true, none⟩,
    ⟨"right", ActionType.movement, 0.1, true, none⟩,
    ⟨"jump", ActionType.dodge, 0.8, false, some ⟨0.2, 0.3, 0.3⟩⟩,
    ⟨"dodge_forward", ActionType.dodge, 1.2, false, some ⟨0.1, 0.4, 0.7⟩⟩,
    ⟨"dodge_backward", ActionType.dodge, 1.2, false, some ⟨0.1, 0.4, 0.7⟩⟩,
    ⟨"dodge_left", ActionType.dodge, 1.2, false, some ⟨0.1, 0.4, 0.7⟩⟩,
    ⟨"dodge_right", ActionType.dodge, 1.2, false, some ⟨0.1, 0.4, 0.7⟩⟩,
    ⟨"interact", ActionType.instant, 0.5, true, none⟩,
    ⟨"attack", ActionType.combat, 1.5, false, some ⟨0.4, 0.3, 0.8⟩⟩,
    ⟨"use_item", ActionType.combat, 2.0, false, some ⟨0.5, 0.5, 1.0⟩⟩,
    ⟨"weapon_art", ActionType.combat, 2.5, false, some ⟨0.8, 0.7, 1.0⟩⟩ ]

/-- Lookup in the discrete action catalog: `self.action_map[i]` for the map
built by `_discrete_action_map`; `none` embeds a `KeyError`. -/
def discreteActionMap (i : ℕ) : Option ActionData :=
  discreteActionList.get? i

/-- One keybinding entry of `_discrete_action_keybindings`
(env.py lines 143-160). -/
structure Keybinding where
  keys : List String
  holdMs : ℕ
  delayMs : ℕ
deriving DecidableEq, Repr

/-- The keybinding table `_discrete_action_keybindings` (env.py lines
143-160). The source maps the name `no-op` to the empty list `[]`, which the
emptiness check of `_execute_action` (line 216) treats exactly like a missing
entry, so it is embedded as `none`; `.get(name, [])` on an unknown name is
likewise `none`. -/
def discreteActionKeybindings (name : String) : Option Keybinding :=
  if name = "forward" then some ⟨["W"], 500, 0⟩
  else if name = "backward" then some ⟨["S"], 500, 0⟩
  else if name = "left" then some ⟨["A"], 500, 0⟩
  else if name = "right" then some ⟨["D"], 500, 0⟩
  else if name = "jump" then some ⟨["SPACE"], 500, 0⟩
  else if name = "dodge_forward" then some ⟨["W", "LEFT_SHIFT"], 100, 200⟩
  else if name = "dodge_backward" then some ⟨["S", "LEFT_SHIFT"], 100, 200⟩
  else if name = "dodge_left" then some ⟨["A", "LEFT_SHIFT"], 100, 200⟩
  else if name = "dodge_right" then some ⟨["D", "LEFT_SHIFT"], 100, 200⟩
  else if name = "interact" then some ⟨["E"], 500, 0⟩
  else if name = "attack" then some ⟨["LEFT_ALT", "LEFT"], 400, 0⟩
  else if name = "use_item" then some ⟨["R"], 500, 0⟩
  else if name = "weapon_art" then some ⟨["F"], 500, 0⟩
  else none

/-- The mutable per-environment execution state: the `self._*` action
tracking fields of `EldenGymEnv` (env.py lines 89-97). `actionQueue` is
`self._action_queue`; `lastAnimationId` is `self._last_animation_id`
(`none` embeds Python `None`). -/
structure EnvState where
  currentAction : Option ℕ
  actionStartTime : Option ℚ
  actionState : ActionState
  actionQueue : List ℕ
  lastAnimationId : Option ℤ
  currentAnimationPhase : AnimationPhase
  lastStepTime : Option ℚ
deriving DecidableEq, Repr

/-- The state installed by `__init__` (env.py lines 90-96). -/
def initState : EnvState :=
  { currentAction := none
    actionStartTime := none
    actionState := ActionState.idle
    actionQueue := []
    lastAnimationId := none
    currentAnimationPhase := AnimationPhase.idle
    lastStepTime := none }

/-- The state installed by `reset` (env.py lines 304-310): as `initState`
but with `_last_animation_id` read from the client. -/
def resetState (anim : ℤ) : EnvState :=
  { initState with lastAnimationId := some anim }

/-- Embeds `_get_current_animation_phase` (env.py lines 162-181), with `now`
standing for its `time()` call. The source returns `IDLE` when not
`EXECUTING` or when `_current_action is None`; with `_current_action` set
but `_action_start_time = None` it would raise a `TypeError` (unreachable
under the §3 invariant), embedded as the `idle` fallback; a missing catalog
id would raise `KeyError`, likewise embedded as `idle`. -/
def getCurrentAnimationPhase (m : ℕ → Option ActionData) (s : EnvState)
    (now : ℚ) : AnimationPhase :=
  match s.actionState, s.currentAction, s.actionStartTime with
  | ActionState.executing, some i, some t0 =>
    match m i with
    | some a =>
      match a.phases with
      | none => AnimationPhase.idle
      | some p =>
        let elapsed := now - t0
        if elapsed < p.startup then AnimationPhase.startup
        else if elapsed < p.startup + p.active then AnimationPhase.active
        else if elapsed < a.duration then AnimationPhase.recovery
        else AnimationPhase.idle
    | none => AnimationPhase.idle
  | _, _, _ => AnimationPhase.idle

/-- Embeds `_can_interrupt_action` (env.py lines 183-204), with `now`
standing for the `time()` call inside the phase computation. The source
looks both ids up before inspecting the phase; a failed lookup raises
`KeyError` (unreachable for the ids the orchestrator passes), embedded as
the `true` fallback. In phase `RECOVERY` with a current action of category
`MOVEMENT` the source returns `True`; with category `DODGE` or `COMBAT` it
returns whether the requested category is `DODGE` or `COMBAT`; with any
other category (`INSTANT`) control falls through to the final
`return True`. -/
def canInterruptAction (m : ℕ → Option ActionData) (s : EnvState)
    (newActionId : ℕ) (now : ℚ) : Bool :=
  if s.actionState ≠ ActionState.executing then true
  else
    match s.currentAction.bind m, m newActionId with
    | some currentAction, some newAction =>
      let currentPhase := getCurrentAnimationPhase m s now
      if currentPhase = AnimationPhase.startup ∨
         currentPhase = AnimationPhase.active then false
      else if currentPhase = AnimationPhase.recovery then
        if currentAction.type = ActionType.movement then true
        else if currentAction.type = ActionType.dodge ∨
                currentAction.type = ActionType.combat then
          decide (newAction.type = ActionType.dodge ∨
                  newAction.type = ActionType.combat)
        else true
      else true
    | _, _ => true

/-- Embeds `_execute_action` (env.py lines 206-221). Returns the success
flag together with the number of `client.send_key` dispatch calls made. A
missing catalog id raises `KeyError` in the source, embedded as the failure
fallback. -/
def executeAction (m : ℕ → Option ActionData) (actionId : ℕ) : Bool × ℕ :=
  match m actionId with
  | none => (false, 0)
  | some a =>
    if a.name = "no-op" then (true, 0)
    else
      match discreteActionKeybindings a.name with
      | none => (false, 0)
      | some _ => (true, 1)

/-- Embeds `_is_action_complete` (env.py lines 223-242), with `now` for its
`time()` call and `observedAnim` for its read of
`client.player_animation_id`. With `_current_action` or `_action_start_time`
unset while `EXECUTING` the source would raise (unreachable under the §3
invariant), embedded as the `false` fallback. -/
def isActionComplete (m : ℕ → Option ActionData) (s : EnvState) (now : ℚ)
    (observedAnim : ℤ) : Bool :=
  if s.actionState ≠ ActionState.executing then true
  else
    match s.currentAction, s.actionStartTime with
    | some i, some t0 =>
      match m i with
      | some a =>
        if now - t0 ≥ a.duration then true
        else if a.type = ActionType.combat then
          decide (some observedAnim ≠ s.lastAnimationId)
        else false
      | none => false
    | _, _ => false

/-- Embeds `_update_action_state` (env.py lines 244-251). -/
def updateActionState (m : ℕ → Option ActionData) (s : EnvState) (now : ℚ)
    (observedAnim : ℤ) : EnvState :=
  if s.actionState = ActionState.executing ∧
     isActionComplete m s now observedAnim then
    { s with actionState := ActionState.completed
             currentAction := none
             actionStartTime := none
             currentAnimationPhase := AnimationPhase.idle }
  else s

/-- The observation-sampling strategies of `_should_sample_observation`
(env.py lines 253-268): the strings `immediate`, `completion`, `smart`. -/
inductive SamplingMode where
  | immediate
  | completion
  | smart
deriving DecidableEq, Repr

/-- Embeds `_should_sample_observation` (env.py lines 253-268), with `now`
for its `time()` call and `interval` for `self._agent_step_interval`. -/
def shouldSampleObservation (mode : SamplingMode) (s : EnvState) (now : ℚ)
    (interval : ℚ) : Bool :=
  match mode with
  | SamplingMode.immediate => true
  | SamplingMode.completion =>
    decide (s.actionState = ActionState.completed ∨
            s.actionState = ActionState.idle)
  | SamplingMode.smart =>
    if s.actionState = ActionState.completed ∨
       s.actionState = ActionState.idle then true
    else
      match s.lastStepTime with
      | none => true
      | some t => decide (now - t ≥ interval)

/-- The stepping strategies of `_handle_stepping_strategy` (env.py lines
270-294): the strings `pause`, `continuous`, `adaptive`. -/
inductive SteppingStrategy where
  | pause
  | continuous
  | adaptive
deriving DecidableEq, Repr

/-- Embeds `_handle_stepping_strategy` (env.py lines 270-294) as the
`client.set_game_speed` call it makes: `some f` is a call with factor `f`,
`none` is no call at all. `now` stands for the `time()` call inside the
phase computation of the adaptive branch. Note the adaptive branch has no
arm for phase `IDLE` while `EXECUTING`: the source makes no speed call
there. -/
def handleSteppingStrategy (strat : SteppingStrategy)
    (m : ℕ → Option ActionData) (s : EnvState) (now : ℚ) : Option ℚ :=
  match strat with
  | SteppingStrategy.pause =>
    if s.actionState = ActionState.executing then some 0.1 else some 1.0
  | SteppingStrategy.continuous => some 1.0
  | SteppingStrategy.adaptive =>
    if s.actionState = ActionState.executing then
      match getCurrentAnimationPhase m s now with
      | AnimationPhase.startup => some 0.5
      | AnimationPhase.active => some 1.0
      | AnimationPhase.recovery => some 0.7
      | AnimationPhase.idle => none
    else some 1.0

/-- The per-step result bundle built by `_get_observation` (env.py lines
416-440), restricted to the execution-state fields; the external fields
(`frame`, hit points, distance, animation ids) come from the client and
carry no execution-state content. The source stores the `.value` strings of
the two enums; the enums themselves are stored here. -/
structure Observation where
  actionStateField : ActionState
  currentAction : Option ℕ
  actionProgress : ℚ
  actionQueueLength : ℕ
  animationPhase : AnimationPhase
  canInterrupt : Bool
deriving DecidableEq, Repr

/-- Embeds `_get_observation` (env.py lines 416-440): the observation
together with the number of `client.get_frame` fetches it performs (always
one, line 418). `tProgress` stands for the `time()` call of the
`action_progress` computation and `tCan` for the one inside the
`can_interrupt` phase computation. With the progress guard satisfied but
`_action_start_time` unset or the catalog id missing the source would raise
(unreachable under the §3 invariant), embedded as progress `0`. -/
def getObservation (m : ℕ → Option ActionData) (s : EnvState)
    (tProgress tCan : ℚ) : Observation × ℕ :=
  let actionProgress : ℚ :=
    if s.actionState = ActionState.executing ∧ s.currentAction ≠ none then
      match s.currentAction, s.actionStartTime with
      | some i, some t0 =>
        match m i with
        | some a => min ((tProgress - t0) / a.duration) 1.0
        | none => 0
      | _, _ => 0
    else 0
  (⟨s.actionState, s.currentAction, actionProgress, s.actionQueue.length,
    s.currentAnimationPhase,
    if s.currentAction ≠ none then canInterruptAction m s 0 tCan
    else true⟩, 1)

/-- One iteration of the poll loop of `step` (env.py lines 368-373): the
`time()` reading of the loop guard, then one reading and one animation-id
read for `_update_action_state`, one reading for
`_get_current_animation_phase`, and one for `_handle_stepping_strategy`. -/
structure PollEvent where
  tGuard : ℚ
  tUpdate : ℚ
  anim : ℤ
  tPhase : ℚ
  tStrat : ℚ
deriving DecidableEq, Repr

/-- Embeds the poll loop of `step` (env.py lines 367-373): `start_wait` is
the `time()` at line 367, and `events` lists the clock readings of the
successive guard evaluations. The loop body runs `_update_action_state`,
recomputes `self._current_animation_phase`, and re-applies the stepping
strategy; the returned `ℕ` counts the `set_game_speed` calls made. The
guard re-checks both the wait bound and the `EXECUTING` state before every
iteration. -/
def pollLoop (m : ℕ → Option ActionData) (strat : SteppingStrategy)
    (maxWait startWait : ℚ) :
    List PollEvent → EnvState → EnvState × ℕ
  | [], s => (s, 0)
  | e :: es, s =>
    if e.tGuard - startWait < maxWait ∧
       s.actionState = ActionState.executing then
      let s1 := updateActionState m s e.tUpdate e.anim
      let s2 := { s1 with
        currentAnimationPhase := getCurrentAnimationPhase m s1 e.tPhase }
      let speedCall := handleSteppingStrategy strat m s2 e.tStrat
      let rest := pollLoop m strat maxWait startWait es s2
      (rest.1, (if speedCall.isSome then 1 else 0) + rest.2)
    else (s, 0)

/-- Embeds the interruption handling of `step` (env.py lines 337-347):
when `EXECUTING`, a request the policy rejects is appended to
`self._action_queue` (only when `action_interruption_enabled`); an accepted
request transitions to `INTERRUPTED` and clears the current action. `tCan`
stands for the `time()` call inside the policy's phase computation. -/
def interruptStage (m : ℕ → Option ActionData) (enabled : Bool)
    (s : EnvState) (actionId : ℕ) (tCan : ℚ) : EnvState :=
  if s.actionState = ActionState.executing then
    if canInterruptAction m s actionId tCan = false then
      if enabled then { s with actionQueue := s.actionQueue ++ [actionId] }
      else s
    else
      { s with actionState := ActionState.interrupted
               currentAction := none
               actionStartTime := none }
  else s

/-- Embeds the dispatch of `step` (env.py lines 350-356): when the state is
`IDLE`, `COMPLETED` or `INTERRUPTED`, run `_execute_action`; on success
install the new action with `start = now` (the step-entry `time()` of line
326), capture the baseline animation id, and set phase `STARTUP`. Returns
the state together with the dispatch-call count of `_execute_action`. -/
def dispatchStage (m : ℕ → Option ActionData) (s : EnvState) (actionId : ℕ)
    (now : ℚ) (animDispatch : ℤ) : EnvState × ℕ :=
  if s.actionState = ActionState.idle ∨
     s.actionState = ActionState.completed ∨
     s.actionState = ActionState.interrupted then
    let r := executeAction m actionId
    if r.1 then
      ({ s with currentAction := some actionId
                actionStartTime := some now
                actionState := ActionState.executing
                lastAnimationId := some animDispatch
                currentAnimationPhase := AnimationPhase.startup }, r.2)
    else (s, r.2)
  else (s, 0)

/-- Embeds the wait block of `step` (env.py lines 362-380): when
`EXECUTING`, compute `max_wait = min(duration, max_action_duration)`, run
the poll loop, and if still `EXECUTING` afterwards force the transition to
`COMPLETED` and clear the action. A missing current action or catalog id
would raise in the source (unreachable: the action was just dispatched from
the catalog, or was already current), embedded as the identity fallback. -/
def waitStage (m : ℕ → Option ActionData) (strat : SteppingStrategy)
    (maxDur : ℚ) (s : EnvState) (startWait : ℚ) (events : List PollEvent) :
    EnvState × ℕ :=
  if s.actionState = ActionState.executing then
    match s.currentAction with
    | some i =>
      match m i with
      | some a =>
        let maxWait := min a.duration maxDur
        let r := pollLoop m strat maxWait startWait events s
        let sF :=
          if r.1.actionState = ActionState.executing then
            { r.1 with actionState := ActionState.completed
                       currentAction := none
                       actionStartTime := none
                       currentAnimationPhase := AnimationPhase.idle }
          else r.1
        (sF, r.2)
      | none => (s, 0)
    | none => (s, 0)
  else (s, 0)

/-- The clock readings and animation-id reads consumed by one invocation of
`step` in discrete mode, one per call site, in source order: `now` is
`current_time` (line 326), `tUpdate`/`animUpdate` feed the entry refresh
(line 329), `tPhase` the entry phase recomputation (line 330), `tCanInt`
the interruption policy (line 338), `animDispatch` the baseline capture at
dispatch (line 355), `tStrat0` the pre-loop strategy call (line 359),
`startWait` and `polls` the wait block (lines 367-373), `tSample` the
sampling decision (line 255), and `tProgress`/`tCanObs` the snapshot (lines
424, 439). -/
structure StepInputs where
  now : ℚ
  tUpdate : ℚ
  animUpdate : ℤ
  tPhase : ℚ
  tCanInt : ℚ
  animDispatch : ℤ
  tStrat0 : ℚ
  startWait : ℚ
  polls : List PollEvent
  tSample : ℚ
  tProgress : ℚ
  tCanObs : ℚ
deriving DecidableEq, Repr

/-- The outcome of one `step` invocation: the final execution state, the
snapshot built for the caller, whether the sampling branch was taken, and
the per-collaborator call counts (`client.send_key`,
`client.set_game_speed`, `client.get_frame`). -/
structure StepResult where
  state : EnvState
  obs : Observation
  sampled : Bool
  dispatchCalls : ℕ
  speedCalls : ℕ
  frameFetches : ℕ
deriving DecidableEq, Repr

/-- Embeds `step` (env.py lines 324-414) for `action_mode = 'discrete'`:
entry refresh and phase recomputation, interruption handling, dispatch,
pre-loop strategy call, wait block, sampling decision, and snapshot. Both
sampling branches call `_get_observation` (lines 391, 408); only the
sampling branch updates `_last_step_time`, and it stores the step-entry
`current_time` (line 403). The reward and termination calls go to the
pluggable reward function, not to a collaborator, and carry no
execution-state effect. -/
def stepDiscrete (m : ℕ → Option ActionData) (strat : SteppingStrategy)
    (sampling : SamplingMode) (interval maxDur : ℚ) (enabled : Bool)
    (s0 : EnvState) (actionId : ℕ) (inp : StepInputs) : StepResult :=
  let s1 := updateActionState m s0 inp.tUpdate inp.animUpdate
  let s2 := { s1 with
    currentAnimationPhase := getCurrentAnimationPhase m s1 inp.tPhase }
  let s3 := interruptStage m enabled s2 actionId inp.tCanInt
  let d := dispatchStage m s3 actionId inp.now inp.animDispatch
  let speed0 := handleSteppingStrategy strat m d.1 inp.tStrat0
  let w := waitStage m strat maxDur d.1 inp.startWait inp.polls
  let s5 := w.1
  let sample := shouldSampleObservation sampling s5 inp.tSample interval
  let o := getObservation m s5 inp.tProgress inp.tCanObs
  let s6 := if sample then { s5 with lastStepTime := some inp.now } else s5
  { state := s6
    obs := o.1
    sampled := sample
    dispatchCalls := d.2
    speedCalls := (if speed0.isSome then 1 else 0) + w.2
    frameFetches := o.2 }

/-- Embeds `step` for `action_mode = 'multi_binary'` (env.py lines
382-414): the action block is `pass`, so only the sampling decision, the
snapshot, and the conditional `_last_step_time` update run. -/
def stepMultiBinary (m : ℕ → Option ActionData) (sampling : SamplingMode)
    (interval : ℚ) (s0 : EnvState) (now tSample tProgress tCanObs : ℚ) :
    StepResult :=
  let sample := shouldSampleObservation sampling s0 tSample interval
  let o := getObservation m s0 tProgress tCanObs
  let s6 := if sample then { s0 with lastStepTime := some now } else s0
  { state := s6
    obs := o.1
    sampled := sample
    dispatchCalls := 0
    speedCalls := 0
    frameFetches := o.2 }

/-- The multi-binary action map `_multi_binary_action_map` (env.py lines
99-113), in the order of the dict keys 0..11. -/
def multiBinaryActionList : List String :=
  ["", "W", "A", "S", "D", "SPACE", "LEFT_SHIFT", "E", "LEFT_ALT", "R",
   "LEFT", "F"]

/-- The catalog installed by `__init__`: either the discrete `ActionData`
catalog or the multi-binary key-string map. -/
inductive InitCatalog where
  | discreteCatalog (m : ℕ → Option ActionData)
  | multiBinaryCatalog (keys : ℕ → Option String)

/-- Embeds the catalog handling of `__init__` (env.py lines 69-78). The
`action_map` constructor parameter (line 37) is accepted but never read:
discrete mode always installs the built-in `_discrete_action_map`, and no
property of any catalog entry is validated. The `Except.error` arm embeds
the `ValueError` raised on an unknown mode string. -/
def envInitActionMap (actionMode : String)
    (_actionMapParam : Option (ℕ → Option ActionData)) :
    Except String InitCatalog :=
  if actionMode = "discrete" then
    Except.ok (InitCatalog.discreteCatalog discreteActionMap)
  else if actionMode = "multi_binary" then
    Except.ok (InitCatalog.multiBinaryCatalog multiBinaryActionList.get?)
  else Except.error ("Invalid action mode: " ++ actionMode)

/-- Modelled from the spec (§3): the phase-breakdown invariant
`startup + active + recovery == duration` when phases are declared. The
source declares no such check; this predicate states the property the spec
asserts, for comparison with the constructor embedding. -/
def specPhaseInvariant (a : ActionData) : Bool :=
  match a.phases with
  | none => true
  | some p => decide (p.startup + p.active + p.recovery = a.duration)

/-- The execution states an environment can reach: the `__init__` state,
any `reset` state, and the result of any `step` invocation (in either
action mode, with the built-in catalog the constructor installs) from a
reachable state. -/
inductive Reachable : EnvState → Prop where
  | init : Reachable initState
  | reset (anim : ℤ) : Reachable (resetState anim)
  | stepD (strat : SteppingStrategy) (sampling : SamplingMode)
      (interval maxDur : ℚ) (enabled : Bool) (s : EnvState) (actionId : ℕ)
      (inp : StepInputs) : Reachable s →
      Reachable (stepDiscrete discreteActionMap strat sampling interval
        maxDur enabled s actionId inp).state
  | stepMB (sampling : SamplingMode) (interval : ℚ) (s : EnvState)
      (now tSample tProgress tCanObs : ℚ) : Reachable s →
      Reachable (stepMultiBinary discreteActionMap sampling interval s now
        tSample tProgress tCanObs).state

/-- Well-formedness of a state with respect to a catalog: while `EXECUTING`
the current action id is set and resolves in the catalog (the part of the
§3 invariant the source relies on to avoid a `KeyError`). -/
def CurrentResolves (m : ℕ → Option ActionData) (s : EnvState) : Prop :=
  s.actionState = ActionState.executing →
    ∃ i a, s.currentAction = some i ∧ m i = some a

theorem updateActionState_of_not_executing (m : ℕ → Option ActionData)
    (s : EnvState) (now : ℚ) (anim : ℤ)
    (h : s.actionState ≠ ActionState.executing) :
    updateActionState m s now anim = s := by
  simp [updateActionState, h]

theorem updateActionState_queue (m : ℕ → Option ActionData) (s : EnvState)
    (now : ℚ) (anim : ℤ) :
    (updateActionState m s now anim).actionQueue = s.actionQueue := by
  unfold updateActionState
  split <;> rfl

theorem interruptStage_of_not_executing (m : ℕ → Option ActionData)
    (enabled : Bool) (s : EnvState) (actionId : ℕ) (t : ℚ)
    (h : s.actionState ≠ ActionState.executing) :
    interruptStage m enabled s actionId t = s := by
  simp [interruptStage, h]

theorem executeAction_ok (m : ℕ → Option ActionData) (i : ℕ)
    (h : (executeAction m i).1 = true) : ∃ a, m i = some a := by
  cases hm : m i with
  | none =>
    unfold executeAction at h
    rw [hm] at h
    cases h
  | some a => exact ⟨a, rfl⟩

theorem executeAction_calls_le_one (m : ℕ → Option ActionData) (i : ℕ) :
    (executeAction m i).2 ≤ 1 := by
  unfold executeAction
  cases m i with
  | none => exact Nat.zero_le 1
  | some a =>
    dsimp only
    split
    · exact Nat.zero_le 1
    · split
      · exact Nat.zero_le 1
      · exact Nat.le_refl 1

theorem dispatchStage_queue (m : ℕ → Option ActionData) (s : EnvState)
    (actionId : ℕ) (now : ℚ) (anim : ℤ) :
    (dispatchStage m s actionId now anim).1.actionQueue = s.actionQueue := by
  unfold dispatchStage
  split
  · dsimp only
    split <;> rfl
  · rfl

theorem dispatchStage_calls_le_one (m : ℕ → Option ActionData)
    (s : EnvState) (actionId : ℕ) (now : ℚ) (anim : ℤ) :
    (dispatchStage m s actionId now anim).2 ≤ 1 := by
  unfold dispatchStage
  split
  · dsimp only
    split
    · exact executeAction_calls_le_one m actionId
    · exact executeAction_calls_le_one m actionId
  · exact Nat.zero_le 1

theorem currentResolves_update (m : ℕ → Option ActionData) (s : EnvState)
    (now : ℚ) (anim : ℤ) (hwf : CurrentResolves m s) :
    CurrentResolves m (updateActionState m s now anim) := by
  unfold updateActionState
  split
  · intro h
    simp [EnvState.actionState] at h
  · exact hwf

theorem currentResolves_setPhase (m : ℕ → Option ActionData) (s : EnvState)
    (φ : AnimationPhase) (hwf : CurrentResolves m s) :
    CurrentResolves m { s with currentAnimationPhase := φ } :=
  hwf

theorem currentResolves_interrupt (m : ℕ → Option ActionData)
    (enabled : Bool) (s : EnvState) (actionId : ℕ) (t : ℚ)
    (hwf : CurrentResolves m s) :
    CurrentResolves m (interruptStage m enabled s actionId t) := by
  unfold interruptStage
  split
  · split
    · split
      · exact fun h => hwf h
      · exact hwf
    · intro h
      simp [EnvState.actionState] at h
  · exact hwf

theorem currentResolves_dispatch (m : ℕ → Option ActionData) (s : EnvState)
    (actionId : ℕ) (now : ℚ) (anim : ℤ) (hwf : CurrentResolves m s) :
    CurrentResolves m (dispatchStage m s actionId now anim).1 := by
  unfold dispatchStage
  split
  · dsimp only
    split
    · next hok =>
        intro _
        obtain ⟨a, ha⟩ := executeAction_ok m actionId hok
        exact ⟨actionId, a, rfl, ha⟩
    · exact hwf
  · exact hwf

theorem pollLoop_queue (m : ℕ → Option ActionData)
    (strat : SteppingStrategy) (maxWait startWait : ℚ) :
    ∀ (es : List PollEvent) (s : EnvState),
    (pollLoop m strat maxWait startWait es s).1.actionQueue =
      s.actionQueue := by
  intro es
  induction es with
  | nil => intro s; rfl
  | cons e es ih =>
    intro s
    unfold pollLoop
    split
    · dsimp only
      rw [ih]
      exact updateActionState_queue m s e.tUpdate e.anim
    · rfl

theorem waitStage_queue (m : ℕ → Option ActionData)
    (strat : SteppingStrategy) (maxDur : ℚ) (s : EnvState) (startWait : ℚ)
    (es : List PollEvent) :
    (waitStage m strat maxDur s startWait es).1.actionQueue =
      s.actionQueue := by
  unfold waitStage
  split
  · cases hc : s.currentAction with
    | none => rfl
    | some i =>
      simp only
      cases hm : m i with
      | none => rfl
      | some a =>
        simp only
        split
        · exact pollLoop_queue m strat (min a.duration maxDur) startWait es s
        · exact pollLoop_queue m strat (min a.duration maxDur) startWait es s
  · rfl

theorem waitStage_not_executing (m : ℕ → Option ActionData)
    (strat : SteppingStrategy) (maxDur : ℚ) (s : EnvState) (startWait : ℚ)
    (es : List PollEvent) (hwf : CurrentResolves m s) :
    (waitStage m strat maxDur s startWait es).1.actionState ≠
      ActionState.executing := by
  unfold waitStage
  by_cases h : s.actionState = ActionState.executing
  · obtain ⟨i, a, hci, hmi⟩ := hwf h
    rw [if_pos h, hci]
    simp only
    rw [hmi]
    simp only
    split
    · intro hx
      simp [EnvState.actionState] at hx
    · next hne => exact hne
  · rw [if_neg h]
    exact h

theorem stepDiscrete_not_executing (m : ℕ → Option ActionData)
    (strat : SteppingStrategy) (sampling : SamplingMode)
    (interval maxDur : ℚ) (enabled : Bool) (s0 : EnvState) (actionId : ℕ)
    (inp : StepInputs) (hwf : CurrentResolves m s0) :
    (stepDiscrete m strat sampling interval maxDur enabled s0 actionId
      inp).state.actionState ≠ ActionState.executing := by
  unfold stepDiscrete
  dsimp only
  have hwf4 : CurrentResolves m (dispatchStage m (interruptStage m enabled
      { updateActionState m s0 inp.tUpdate inp.animUpdate with
        currentAnimationPhase := getCurrentAnimationPhase m
          (updateActionState m s0 inp.tUpdate inp.animUpdate) inp.tPhase }
      actionId inp.tCanInt) actionId inp.now inp.animDispatch).1 :=
    currentResolves_dispatch _ _ _ _ _
      (currentResolves_interrupt _ _ _ _ _
        (currentResolves_setPhase _ _ _
          (currentResolves_update _ _ _ _ hwf)))
  have hw := waitStage_not_executing m strat maxDur _ inp.startWait
    inp.polls hwf4
  split
  · exact hw
  · exact hw

theorem stepDiscrete_queue_of_not_executing (m : ℕ → Option ActionData)
    (strat : SteppingStrategy) (sampling : SamplingMode)
    (interval maxDur : ℚ) (enabled : Bool) (s0 : EnvState) (actionId : ℕ)
    (inp : StepInputs) (h : s0.actionState ≠ ActionState.executing) :
    (stepDiscrete m strat sampling interval maxDur enabled s0 actionId
      inp).state.actionQueue = s0.actionQueue := by
  unfold stepDiscrete
  dsimp only
  rw [updateActionState_of_not_executing m s0 _ _ h]
  have h2 : ({ s0 with currentAnimationPhase :=
      getCurrentAnimationPhase m s0 inp.tPhase } : EnvState).actionState ≠
      ActionState.executing := h
  rw [interruptStage_of_not_executing m enabled _ actionId inp.tCanInt h2]
  have hq : (waitStage m strat maxDur (dispatchStage m
      { s0 with currentAnimationPhase :=
        getCurrentAnimationPhase m s0 inp.tPhase } actionId inp.now
      inp.animDispatch).1 inp.startWait inp.polls).1.actionQueue =
      s0.actionQueue := by
    rw [waitStage_queue, dispatchStage_queue]
  split
  · exact hq
  · exact hq

theorem stepMultiBinary_state (m : ℕ → Option ActionData)
    (sampling : SamplingMode) (interval : ℚ) (s0 : EnvState)
    (now tSample tProgress tCanObs : ℚ) :
    (stepMultiBinary m sampling interval s0 now tSample tProgress
      tCanObs).state.actionState = s0.actionState ∧
    (stepMultiBinary m sampling interval s0 now tSample tProgress
      tCanObs).state.actionQueue = s0.actionQueue := by
  unfold stepMultiBinary
  dsimp only
  split
  · exact ⟨rfl, rfl⟩
  · exact ⟨rfl, rfl⟩

/-- Inductive invariant of the orchestrator: every reachable execution
state has finished its step (the poll loop's forced completion never leaves
`EXECUTING` behind) and the action queue of rejected requests is empty —
the rejection branch of `step` is unreachable. -/
theorem reachable_inv (s : EnvState) (h : Reachable s) :
    s.actionState ≠ ActionState.executing ∧ s.actionQueue = [] := by
  induction h with
  | init => exact ⟨by simp [initState], rfl⟩
  | reset anim => exact ⟨by simp [resetState, initState], rfl⟩
  | stepD strat sampling interval maxDur enabled s actionId inp hs ih =>
    obtain ⟨hne, hq⟩ := ih
    refine ⟨?_, ?_⟩
    · exact stepDiscrete_not_executing discreteActionMap strat sampling
        interval maxDur enabled s actionId inp (fun hx => absurd hx hne)
    · rw [stepDiscrete_queue_of_not_executing discreteActionMap strat
        sampling interval maxDur enabled s actionId inp hne]
      exact hq
  | stepMB sampling interval s now tSample tProgress tCanObs hs ih =>
    obtain ⟨hne, hq⟩ := ih
    obtain ⟨h1, h2⟩ := stepMultiBinary_state discreteActionMap sampling
      interval s now tSample tProgress tCanObs
    exact ⟨by rw [h1]; exact hne, by rw [h2]; exact hq⟩

/-- C3: for an `EXECUTING` state whose current definition declares a phase
breakdown `{startup = s, active = a, recovery = r}` with
`s + a + r = duration` (the durations being nonnegative), `computePhase`
returns `Startup` exactly when `elapsed < s`, `Active` exactly when
`s ≤ elapsed < s + a`, `Recovery` exactly when
`s + a ≤ elapsed < duration`, and `Idle` exactly when
`elapsed ≥ duration`; it returns `Idle` whenever the state is not
`EXECUTING` or the definition declares no phase breakdown. -/
theorem computePhase_boundaries (m : ℕ → Option ActionData) :
    (∀ (s : EnvState) (now : ℚ),
      s.actionState ≠ ActionState.executing →
      getCurrentAnimationPhase m s now = AnimationPhase.idle) ∧
    (∀ (s : EnvState) (now t0 : ℚ) (i : ℕ) (a : ActionData),
      s.actionState = ActionState.executing → s.currentAction = some i →
      s.actionStartTime = some t0 → m i = some a → a.phases = none →
      getCurrentAnimationPhase m s now = AnimationPhase.idle) ∧
    (∀ (s : EnvState) (now t0 : ℚ) (i : ℕ) (a : ActionData) (p : Phases),
      s.actionState = ActionState.executing → s.currentAction = some i →
      s.actionStartTime = some t0 → m i = some a → a.phases = some p →
      0 ≤ p.startup → 0 ≤ p.active → 0 ≤ p.recovery →
      p.startup + p.active + p.recovery = a.duration →
      ((getCurrentAnimationPhase m s now = AnimationPhase.startup ↔
          now - t0 < p.startup) ∧
       (getCurrentAnimationPhase m s now = AnimationPhase.active ↔
          p.startup ≤ now - t0 ∧ now - t0 < p.startup + p.active) ∧
       (getCurrentAnimationPhase m s now = AnimationPhase.recovery ↔
          p.startup + p.active ≤ now - t0 ∧ now - t0 < a.duration) ∧
       (getCurrentAnimationPhase m s now = AnimationPhase.idle ↔
          a.duration ≤ now - t0))) := by
  refine ⟨?_, ?_, ?_⟩
  · intro s now h
    unfold getCurrentAnimationPhase
    cases hs : s.actionState with
    | executing => exact absurd hs h
    | idle => cases s.currentAction <;> cases s.actionStartTime <;> rfl
    | completed => cases s.currentAction <;> cases s.actionStartTime <;> rfl
    | interrupted => cases s.currentAction <;> cases s.actionStartTime <;> rfl
  · intro s now t0 i a hs hci hst hm hp
    simp only [getCurrentAnimationPhase, hs, hci, hst, hm, hp]
  · intro s now t0 i a p hs hci hst hm hp h0s h0a h0r hsum
    have hred : getCurrentAnimationPhase m s now =
        (if now - t0 < p.startup then AnimationPhase.startup
         else if now - t0 < p.startup + p.active then AnimationPhase.active
         else if now - t0 < a.duration then AnimationPhase.recovery
         else AnimationPhase.idle) := by
      simp only [getCurrentAnimationPhase, hs, hci, hst, hm, hp]
    rw [hred]
    refine ⟨?_, ?_, ?_, ?_⟩
    · split_ifs with h1 h2 h3
      · exact iff_of_true rfl h1
      · exact iff_of_false (by decide) h1
      · exact iff_of_false (by decide) h1
      · exact iff_of_false (by decide) h1
    · split_ifs with h1 h2 h3
      · exact iff_of_false (by decide) (fun hc => absurd hc.1 (not_le.mpr h1))
      · exact iff_of_true rfl ⟨le_of_not_lt h1, h2⟩
      · exact iff_of_false (by decide) (fun hc => h2 hc.2)
      · exact iff_of_false (by decide) (fun hc => h2 hc.2)
    · split_ifs with h1 h2 h3
      · exact iff_of_false (by decide) (fun hc => by
          have := hc.1
          linarith)
      · exact iff_of_false (by decide) (fun hc => absurd hc.1 (not_le.mpr h2))
      · exact iff_of_true rfl ⟨le_of_not_lt h2, h3⟩
      · exact iff_of_false (by decide) (fun hc => h3 hc.2)
    · split_ifs with h1 h2 h3
      · exact iff_of_false (by decide) (fun hc => by linarith)
      · exact iff_of_false (by decide) (fun hc => by linarith)
      · exact iff_of_false (by decide) (fun hc => absurd h3 (not_lt.mpr hc))
      · exact iff_of_true rfl (le_of_not_lt h3)

/-- Witness for C3: the `attack` action (`duration = 1.5`,
`startup = 0.4`, `active = 0.3`, `recovery = 0.8`) dispatched at `t = 0` is
exactly at the `Startup`/`Active` boundary at `elapsed = 0.4`. -/
theorem computePhase_boundaries_witness :
    getCurrentAnimationPhase discreteActionMap
      { currentAction := some 11, actionStartTime := some 0,
        actionState := ActionState.executing, actionQueue := [],
        lastAnimationId := some 0,
        currentAnimationPhase := AnimationPhase.startup,
        lastStepTime := none } 0.4 = AnimationPhase.active :=
  ((computePhase_boundaries discreteActionMap).2.2
    { currentAction := some 11, actionStartTime := some 0,
      actionState := ActionState.executing, actionQueue := [],
      lastAnimationId := some 0,
      currentAnimationPhase := AnimationPhase.startup,
      lastStepTime := none } 0.4 0 11
    ⟨"attack", ActionType.combat, 1.5, false, some ⟨0.4, 0.3, 0.8⟩⟩
    ⟨0.4, 0.3, 0.8⟩ rfl rfl rfl rfl rfl (by norm_num) (by norm_num)
    (by norm_num) (by norm_num)).2.1.mpr ⟨by norm_num, by norm_num⟩

/-- C1 (amended): `canInterrupt` returns `true` when the state is not
`EXECUTING` or the phase is `Idle`; `false` whenever the phase is `Startup`
or `Active`; and, in phase `Recovery`, `true` when the current category is
`Movement`, `true` for a current `Dodge`- or `Combat`-category action
exactly when the requested category is `Dodge` or `Combat`, and `true` (not
`false`) in the remaining `Recovery` case of a current `Instant`-category
action, regardless of the requested category. -/
theorem canInterrupt_characterization (m : ℕ → Option ActionData)
    (s : EnvState) (j : ℕ) (now : ℚ) (i : ℕ) (cur req : ActionData)
    (hci : s.currentAction = some i) (hmi : m i = some cur)
    (hmj : m j = some req) :
    (s.actionState ≠ ActionState.executing →
      canInterruptAction m s j now = true) ∧
    (s.actionState = ActionState.executing →
      (getCurrentAnimationPhase m s now = AnimationPhase.idle →
        canInterruptAction m s j now = true) ∧
      ((getCurrentAnimationPhase m s now = AnimationPhase.startup ∨
        getCurrentAnimationPhase m s now = AnimationPhase.active) →
        canInterruptAction m s j now = false) ∧
      (getCurrentAnimationPhase m s now = AnimationPhase.recovery →
        (cur.type = ActionType.movement →
          canInterruptAction m s j now = true) ∧
        ((cur.type = ActionType.dodge ∨ cur.type = ActionType.combat) →
          (canInterruptAction m s j now = true ↔
            (req.type = ActionType.dodge ∨
             req.type = ActionType.combat))) ∧
        (cur.type = ActionType.instant →
          canInterruptAction m s j now = true))) := by
  constructor
  · intro h
    simp [canInterruptAction, h]
  · intro h
    have hred : canInterruptAction m s j now =
        (if getCurrentAnimationPhase m s now = AnimationPhase.startup ∨
            getCurrentAnimationPhase m s now = AnimationPhase.active then
          false
         else if getCurrentAnimationPhase m s now =
            AnimationPhase.recovery then
          if cur.type = ActionType.movement then true
          else if cur.type = ActionType.dodge ∨
              cur.type = ActionType.combat then
            decide (req.type = ActionType.dodge ∨
                    req.type = ActionType.combat)
          else true
         else true) := by
      simp only [canInterruptAction, h, hci, Option.some_bind, hmi, hmj]
      simp
    refine ⟨?_, ?_, ?_⟩
    · intro hφ
      rw [hred, hφ]
      simp
    · intro hφ
      rw [hred, if_pos hφ]
    · intro hφ
      refine ⟨?_, ?_, ?_⟩
      · intro htype
        rw [hred, hφ]
        simp [htype]
      · intro htype
        rw [hred, hφ]
        rcases htype with ht | ht <;> simp [ht]
      · intro htype
        rw [hred, hφ]
        simp [htype]

/-- Witness for C1: with the built-in catalog, an `attack` (`Combat`) in
`Recovery` at `elapsed = 1.0` may be interrupted by `dodge_forward`
(`Dodge`). -/
theorem canInterrupt_characterization_witness :
    canInterruptAction discreteActionMap
      { currentAction := some 11, actionStartTime := some 0,
        actionState := ActionState.executing, actionQueue := [],
        lastAnimationId := some 0,
        currentAnimationPhase := AnimationPhase.recovery,
        lastStepTime := none } 6 1 = true :=
  (((canInterrupt_characterization discreteActionMap
    { currentAction := some 11, actionStartTime := some 0,
      actionState := ActionState.executing, actionQueue := [],
      lastAnimationId := some 0,
      currentAnimationPhase := AnimationPhase.recovery,
      lastStepTime := none } 6 1 11
    ⟨"attack", ActionType.combat, 1.5, false, some ⟨0.4, 0.3, 0.8⟩⟩
    ⟨"dodge_forward", ActionType.dodge, 1.2, false, some ⟨0.1, 0.4, 0.7⟩⟩
    rfl rfl rfl).2 rfl).2.2 (by norm_num [getCurrentAnimationPhase,
      discreteActionMap, discreteActionList])).2.1 (Or.inr rfl)
      |>.mpr (Or.inl rfl)

/-- A two-action catalog exhibiting the `Recovery`-with-`Instant` corner of
the interruption policy: action `0` is an `Instant`-category action that
declares a phase breakdown, action `1` is a `Movement`-category request. -/
def interruptCexMap : ℕ → Option ActionData := fun i =>
  if i = 0 then
    some ⟨"cex_current", ActionType.instant, 1, true, some ⟨0.25, 0.25, 0.5⟩⟩
  else if i = 1 then
    some ⟨"cex_request", ActionType.movement, 1, true, none⟩
  else none

/-- An execution state running `interruptCexMap` action `0` since `t = 0`. -/
def interruptCexState : EnvState :=
  { currentAction := some 0, actionStartTime := some 0,
    actionState := ActionState.executing, actionQueue := [],
    lastAnimationId := some 0,
    currentAnimationPhase := AnimationPhase.recovery, lastStepTime := none }

/-- Counterexample to C1 as stated: at `elapsed = 0.6` the current
`Instant`-category action is in phase `Recovery`, and for a
`Movement`-category request `_can_interrupt_action` returns `True` — not
`false` as the claim asserts for a current `Instant`-category action in
`Recovery`. -/
theorem canInterrupt_instant_recovery_counterexample :
    getCurrentAnimationPhase interruptCexMap interruptCexState 0.6 =
      AnimationPhase.recovery ∧
    (interruptCexMap 0).map ActionData.type = some ActionType.instant ∧
    (interruptCexMap 1).map ActionData.type = some ActionType.movement ∧
    canInterruptAction interruptCexMap interruptCexState 1 0.6 = true := by
  refine ⟨?_, rfl, rfl, ?_⟩
  · norm_num [getCurrentAnimationPhase, interruptCexMap, interruptCexState]
  · norm_num [canInterruptAction, getCurrentAnimationPhase,
      interruptCexMap, interruptCexState]
    decide

/-- C6 (amended): the stepping-strategy speed directive is: under `pause`,
`0.1` while `EXECUTING` and `1.0` otherwise; under `continuous`, always
`1.0`; under `adaptive`, `0.5` during `Startup`, `1.0` during `Active`,
`0.7` during `Recovery`, `1.0` when not `EXECUTING` — and no speed call at
all (not a `1.0` directive) when `EXECUTING` with phase `Idle`. -/
theorem speedFactor_characterization (m : ℕ → Option ActionData)
    (s : EnvState) (now : ℚ) :
    (s.actionState = ActionState.executing →
      handleSteppingStrategy SteppingStrategy.pause m s now = some 0.1) ∧
    (s.actionState ≠ ActionState.executing →
      handleSteppingStrategy SteppingStrategy.pause m s now = some 1.0) ∧
    (handleSteppingStrategy SteppingStrategy.continuous m s now =
      some 1.0) ∧
    (s.actionState ≠ ActionState.executing →
      handleSteppingStrategy SteppingStrategy.adaptive m s now =
        some 1.0) ∧
    (s.actionState = ActionState.executing →
      (getCurrentAnimationPhase m s now = AnimationPhase.startup →
        handleSteppingStrategy SteppingStrategy.adaptive m s now =
          some 0.5) ∧
      (getCurrentAnimationPhase m s now = AnimationPhase.active →
        handleSteppingStrategy SteppingStrategy.adaptive m s now =
          some 1.0) ∧
      (getCurrentAnimationPhase m s now = AnimationPhase.recovery →
        handleSteppingStrategy SteppingStrategy.adaptive m s now =
          some 0.7) ∧
      (getCurrentAnimationPhase m s now = AnimationPhase.idle →
        handleSteppingStrategy SteppingStrategy.adaptive m s now =
          none)) := by
  refine ⟨?_, ?_, ?_, ?_, ?_⟩
  · intro h
    simp [handleSteppingStrategy, h]
  · intro h
    simp [handleSteppingStrategy, h]
  · rfl
  · intro h
    simp [handleSteppingStrategy, h]
  · intro h
    refine ⟨?_, ?_, ?_, ?_⟩ <;> intro hφ <;>
      simp [handleSteppingStrategy, h, hφ]

/-- Witness for C6: with the built-in catalog, `adaptive` issues a `0.5`
directive while `attack` is in `Startup` at `elapsed = 0.2`. -/
theorem speedFactor_characterization_witness :
    handleSteppingStrategy SteppingStrategy.adaptive discreteActionMap
      { currentAction := some 11, actionStartTime := some 0,
        actionState := ActionState.executing, actionQueue := [],
        lastAnimationId := some 0,
        currentAnimationPhase := AnimationPhase.startup,
        lastStepTime := none } 0.2 = some 0.5 :=
  ((speedFactor_characterization discreteActionMap
    { currentAction := some 11, actionStartTime := some 0,
      actionState := ActionState.executing, actionQueue := [],
      lastAnimationId := some 0,
      currentAnimationPhase := AnimationPhase.startup,
      lastStepTime := none } 0.2).2.2.2.2 rfl).1
    (by norm_num [getCurrentAnimationPhase, discreteActionMap,
      discreteActionList])

/-- An execution state running the built-in `forward` action (which
declares no phase breakdown) since `t = 0`. -/
def speedCexState : EnvState :=
  { currentAction := some 1, actionStartTime := some 0,
    actionState := ActionState.executing, actionQueue := [],
    lastAnimationId := some 0,
    currentAnimationPhase := AnimationPhase.startup, lastStepTime := none }

/-- Counterexample to C6 as stated: while `EXECUTING` the built-in
`forward` action (no phase breakdown, so phase `Idle`), the `adaptive`
strategy branch of `_handle_stepping_strategy` makes no `set_game_speed`
call at all, rather than returning the `1.0` the claim asserts for phase
`Idle`. -/
theorem speedFactor_executing_idle_counterexample :
    speedCexState.actionState = ActionState.executing ∧
    getCurrentAnimationPhase discreteActionMap speedCexState 0.05 =
      AnimationPhase.idle ∧
    handleSteppingStrategy SteppingStrategy.adaptive discreteActionMap
      speedCexState 0.05 = none := by
  refine ⟨rfl, ?_, ?_⟩
  · norm_num [getCurrentAnimationPhase, speedCexState, discreteActionMap,
      discreteActionList]
  · norm_num [handleSteppingStrategy, getCurrentAnimationPhase,
      speedCexState, discreteActionMap, discreteActionList]

/-- C7: under the `smart` strategy, `shouldSample` is `true` exactly when
the lifecycle state is `Completed` or `Idle`, or there is no prior sample
timestamp, or `now` minus the last sample timestamp is at least
`1 / agentFrequencyHz`; in particular, while `EXECUTING`, a check strictly
less than the interval after the recorded sample does not sample. -/
theorem smartSampling_characterization (freq : ℚ) :
    (∀ (s : EnvState) (now : ℚ),
      shouldSampleObservation SamplingMode.smart s now (1 / freq) = true ↔
      (s.actionState = ActionState.completed ∨
       s.actionState = ActionState.idle ∨
       s.lastStepTime = none ∨
       ∃ t, s.lastStepTime = some t ∧ 1 / freq ≤ now - t)) ∧
    (∀ (s : EnvState) (t1 t2 : ℚ),
      s.actionState = ActionState.executing → s.lastStepTime = some t1 →
      t2 - t1 < 1 / freq →
      shouldSampleObservation SamplingMode.smart s t2 (1 / freq) =
        false) := by
  constructor
  · intro s now
    unfold shouldSampleObservation
    by_cases hc : s.actionState = ActionState.completed ∨
        s.actionState = ActionState.idle
    · rw [if_pos hc]
      simp only [true_iff]
      tauto
    · rw [if_neg hc]
      cases ht : s.lastStepTime with
      | none =>
        simp only [true_iff]
        tauto
      | some t =>
        simp only [decide_eq_true_eq, ge_iff_le]
        constructor
        · intro hge
          exact Or.inr (Or.inr (Or.inr ⟨t, rfl, hge⟩))
        · rintro (h | h | h | ⟨t', ht', hge⟩)
          · exact absurd (Or.inl h) hc
          · exact absurd (Or.inr h) hc
          · cases h
          · injection ht' with he
            rw [he]
            exact hge
  · intro s t1 t2 hs ht h
    unfold shouldSampleObservation
    have hc : ¬(s.actionState = ActionState.completed ∨
        s.actionState = ActionState.idle) := by
      rw [hs]
      rintro (hx | hx) <;> cases hx
    rw [if_neg hc, ht]
    simp only [decide_eq_false_iff_not, ge_iff_le, not_le]
    linarith

/-- Witness for C7 with `agentFrequencyHz = 2` (interval `0.5`): while
`EXECUTING` with the last sample recorded at `t = 0`, a check at `t = 0.6`
samples and a check at `t = 0.3` does not. -/
theorem smartSampling_characterization_witness :
    shouldSampleObservation SamplingMode.smart
      { currentAction := some 11, actionStartTime := some 0,
        actionState := ActionState.executing, actionQueue := [],
        lastAnimationId := some 0,
        currentAnimationPhase := AnimationPhase.startup,
        lastStepTime := some 0 } 0.6 (1 / 2) = true ∧
    shouldSampleObservation SamplingMode.smart
      { currentAction := some 11, actionStartTime := some 0,
        actionState := ActionState.executing, actionQueue := [],
        lastAnimationId := some 0,
        currentAnimationPhase := AnimationPhase.startup,
        lastStepTime := some 0 } 0.3 (1 / 2) = false :=
  ⟨((smartSampling_characterization 2).1 _ 0.6).mpr
      (Or.inr (Or.inr (Or.inr ⟨0, rfl, by norm_num⟩))),
   (smartSampling_characterization 2).2 _ 0 0.3 rfl rfl (by norm_num)⟩

/-- C8: when an `EXECUTING` action has reached `elapsed ≥ duration` — or,
for a `Combat`-category action, the observed animation identifier differs
from the baseline captured at dispatch — the refresh step transitions the
state to `Completed` and clears `currentActionId` and `startTimestamp`, so
the next snapshot reports `currentActionId = none` and
`animationPhase = Idle`. -/
theorem completion_roundtrip (m : ℕ → Option ActionData) (s : EnvState)
    (now : ℚ) (anim : ℤ) (i : ℕ) (a : ActionData) (t0 tProgress tCan : ℚ)
    (hs : s.actionState = ActionState.executing)
    (hci : s.currentAction = some i) (hst : s.actionStartTime = some t0)
    (hmi : m i = some a)
    (hdone : a.duration ≤ now - t0 ∨
      (a.type = ActionType.combat ∧ some anim ≠ s.lastAnimationId)) :
    (updateActionState m s now anim).actionState =
      ActionState.completed ∧
    (updateActionState m s now anim).currentAction = none ∧
    (updateActionState m s now anim).actionStartTime = none ∧
    (getObservation m (updateActionState m s now anim) tProgress
      tCan).1.currentAction = none ∧
    (getObservation m (updateActionState m s now anim) tProgress
      tCan).1.animationPhase = AnimationPhase.idle := by
  have hcomp : isActionComplete m s now anim = true := by
    unfold isActionComplete
    rcases hdone with h | ⟨hcb, hne⟩
    · simp [hs, hci, hst, hmi, h]
    · by_cases hd : now - t0 ≥ a.duration
      · simp [hs, hci, hst, hmi, hd]
      · simp [hs, hci, hst, hmi, hd, hcb, hne]
  have hupd : updateActionState m s now anim =
      { s with actionState := ActionState.completed,
               currentAction := none, actionStartTime := none,
               currentAnimationPhase := AnimationPhase.idle } := by
    unfold updateActionState
    rw [if_pos ⟨hs, hcomp⟩]
  rw [hupd]
  exact ⟨rfl, rfl, rfl, rfl, rfl⟩

/-- Witness for C8: an `attack` dispatched at `t = 0` with baseline
animation id `7`, refreshed at `t = 1.5` (its full duration), completes
and the snapshot reports no current action and phase `Idle`. -/
theorem completion_roundtrip_witness :
    (updateActionState discreteActionMap
      { currentAction := some 11, actionStartTime := some 0,
        actionState := ActionState.executing, actionQueue := [],
        lastAnimationId := some 7,
        currentAnimationPhase := AnimationPhase.recovery,
        lastStepTime := none } 1.5 7).actionState =
      ActionState.completed ∧
    (updateActionState discreteActionMap
      { currentAction := some 11, actionStartTime := some 0,
        actionState := ActionState.executing, actionQueue := [],
        lastAnimationId := some 7,
        currentAnimationPhase := AnimationPhase.recovery,
        lastStepTime := none } 1.5 7).currentAction = none ∧
    (updateActionState discreteActionMap
      { currentAction := some 11, actionStartTime := some 0,
        actionState := ActionState.executing, actionQueue := [],
        lastAnimationId := some 7,
        currentAnimationPhase := AnimationPhase.recovery,
        lastStepTime := none } 1.5 7).actionStartTime = none ∧
    (getObservation discreteActionMap (updateActionState discreteActionMap
      { currentAction := some 11, actionStartTime := some 0,
        actionState := ActionState.executing, actionQueue := [],
        lastAnimationId := some 7,
        currentAnimationPhase := AnimationPhase.recovery,
        lastStepTime := none } 1.5 7) 1.5 1.5).1.currentAction = none ∧
    (getObservation discreteActionMap (updateActionState discreteActionMap
      { currentAction := some 11, actionStartTime := some 0,
        actionState := ActionState.executing, actionQueue := [],
        lastAnimationId := some 7,
        currentAnimationPhase := AnimationPhase.recovery,
        lastStepTime := none } 1.5 7) 1.5 1.5).1.animationPhase =
      AnimationPhase.idle :=
  completion_roundtrip discreteActionMap
    { currentAction := some 11, actionStartTime := some 0,
      actionState := ActionState.executing, actionQueue := [],
      lastAnimationId := some 7,
      currentAnimationPhase := AnimationPhase.recovery,
      lastStepTime := none } 1.5 7 11
    ⟨"attack", ActionType.combat, 1.5, false, some ⟨0.4, 0.3, 0.8⟩⟩
    0 1.5 1.5 rfl rfl rfl rfl (Or.inl (by norm_num))

/-- C2: in every reachable execution state the queue of rejected requests
is empty — `step` always returns with the lifecycle out of `EXECUTING`, so
its rejection branch never runs — and therefore the `pendingCount`
(`action_queue_length`) reported in every snapshot never exceeds 1. -/
theorem pendingCount_le_one (s : EnvState) (h : Reachable s)
    (tProgress tCan : ℚ) :
    (getObservation discreteActionMap s tProgress
      tCan).1.actionQueueLength ≤ 1 := by
  obtain ⟨-, hq⟩ := reachable_inv s h
  have hlen : (getObservation discreteActionMap s tProgress
      tCan).1.actionQueueLength = s.actionQueue.length := rfl
  rw [hlen, hq]
  exact Nat.zero_le 1

/-- Witness for C2 at the freshly constructed environment state. -/
theorem pendingCount_le_one_witness :
    (getObservation discreteActionMap initState 0
      0).1.actionQueueLength ≤ 1 :=
  pendingCount_le_one initState Reachable.init 0 0

theorem stepDiscrete_obs_progress_zero (m : ℕ → Option ActionData)
    (strat : SteppingStrategy) (sampling : SamplingMode)
    (interval maxDur : ℚ) (enabled : Bool) (s0 : EnvState) (actionId : ℕ)
    (inp : StepInputs) (hwf : CurrentResolves m s0) :
    (stepDiscrete m strat sampling interval maxDur enabled s0 actionId
      inp).obs.actionProgress = 0 := by
  unfold stepDiscrete
  dsimp only
  have hwf4 : CurrentResolves m (dispatchStage m (interruptStage m enabled
      { updateActionState m s0 inp.tUpdate inp.animUpdate with
        currentAnimationPhase := getCurrentAnimationPhase m
          (updateActionState m s0 inp.tUpdate inp.animUpdate) inp.tPhase }
      actionId inp.tCanInt) actionId inp.now inp.animDispatch).1 :=
    currentResolves_dispatch _ _ _ _ _
      (currentResolves_interrupt _ _ _ _ _
        (currentResolves_setPhase _ _ _
          (currentResolves_update _ _ _ _ hwf)))
  have hw := waitStage_not_executing m strat maxDur _ inp.startWait
    inp.polls hwf4
  unfold getObservation
  dsimp only
  rw [if_neg]
  · rintro ⟨hx, -⟩
    exact hw hx

/-- C10: in discrete mode `step` never returns while the lifecycle state is
`EXECUTING` — the wait block either observes completion or forces the
transition to `Completed` before the snapshot — and consequently the
`action_progress` guard of the snapshot is false, so the division
`elapsed / duration` is never evaluated (in particular never with the
zero-duration `no-op` current) and the reported progress is `0`. -/
theorem step_never_returns_executing (m : ℕ → Option ActionData)
    (strat : SteppingStrategy) (sampling : SamplingMode)
    (interval maxDur : ℚ) (enabled : Bool) (s0 : EnvState) (actionId : ℕ)
    (inp : StepInputs) (hwf : CurrentResolves m s0) :
    (stepDiscrete m strat sampling interval maxDur enabled s0 actionId
      inp).state.actionState ≠ ActionState.executing ∧
    (stepDiscrete m strat sampling interval maxDur enabled s0 actionId
      inp).obs.actionProgress = 0 :=
  ⟨stepDiscrete_not_executing m strat sampling interval maxDur enabled s0
     actionId inp hwf,
   stepDiscrete_obs_progress_zero m strat sampling interval maxDur enabled
     s0 actionId inp hwf⟩

/-- A trivial input bundle: every clock reading `0`, every animation id
`0`, no poll iterations. -/
def zeroInputs : StepInputs :=
  { now := 0, tUpdate := 0, animUpdate := 0, tPhase := 0, tCanInt := 0,
    animDispatch := 0, tStrat0 := 0, startWait := 0, polls := [],
    tSample := 0, tProgress := 0, tCanObs := 0 }

/-- Witness for C10: a `no-op` step from the freshly constructed state. -/
theorem step_never_returns_executing_witness :
    (stepDiscrete discreteActionMap SteppingStrategy.continuous
      SamplingMode.immediate 1 3 true initState 0
      zeroInputs).state.actionState ≠ ActionState.executing ∧
    (stepDiscrete discreteActionMap SteppingStrategy.continuous
      SamplingMode.immediate 1 3 true initState 0
      zeroInputs).obs.actionProgress = 0 :=
  step_never_returns_executing discreteActionMap
    SteppingStrategy.continuous SamplingMode.immediate 1 3 true initState
    0 zeroInputs (fun hx => absurd hx (by simp [initState]))

theorem pollLoop_of_nonpos (m : ℕ → Option ActionData)
    (strat : SteppingStrategy) (maxWait startWait : ℚ)
    (es : List PollEvent) (s : EnvState) (hmw : maxWait ≤ 0)
    (hts : ∀ e ∈ es, startWait ≤ e.tGuard) :
    pollLoop m strat maxWait startWait es s = (s, 0) := by
  cases es with
  | nil => rfl
  | cons e es =>
    unfold pollLoop
    rw [if_neg]
    rintro ⟨hlt, -⟩
    have h := hts e (List.mem_cons_self e es)
    linarith

theorem dispatchStage_noop (s : EnvState) (now : ℚ) (anim : ℤ)
    (h : s.actionState = ActionState.idle ∨
         s.actionState = ActionState.completed ∨
         s.actionState = ActionState.interrupted) :
    dispatchStage discreteActionMap s 0 now anim =
      ({ s with currentAction := some 0, actionStartTime := some now,
                actionState := ActionState.executing,
                lastAnimationId := some anim,
                currentAnimationPhase := AnimationPhase.startup }, 0) := by
  unfold dispatchStage
  rw [if_pos h]
  rfl

theorem waitStage_noop (strat : SteppingStrategy) (maxDur : ℚ)
    (s : EnvState) (startWait : ℚ) (es : List PollEvent)
    (hs : s.actionState = ActionState.executing)
    (hc : s.currentAction = some 0) (hmd : 0 ≤ maxDur)
    (hts : ∀ e ∈ es, startWait ≤ e.tGuard) :
    waitStage discreteActionMap strat maxDur s startWait es =
      ({ s with actionState := ActionState.completed,
                currentAction := none, actionStartTime := none,
                currentAnimationPhase := AnimationPhase.idle }, 0) := by
  unfold waitStage
  rw [if_pos hs, hc]
  dsimp only
  rw [show discreteActionMap 0 =
    some ⟨"no-op", ActionType.instant, 0, true, none⟩ from rfl]
  dsimp only
  rw [show min (⟨"no-op", ActionType.instant, 0, true,
    none⟩ : ActionData).duration maxDur = 0 from min_eq_left hmd]
  rw [pollLoop_of_nonpos discreteActionMap strat 0 startWait es s le_rfl
    hts]
  dsimp only
  rw [if_pos hs]

/-- C4 (amended): dispatching the `no-op` action while `Idle` always
succeeds (the dispatch helper returns success, making zero collaborator
calls), but the step does not leave the execution state unchanged: the
dispatch puts it in `EXECUTING` and the zero-duration wait bound then
forces it to `Completed` — not back to `Idle` — with `currentActionId` and
`startTimestamp` cleared, the pending queue untouched, and the snapshot
reporting `actionProgress = 0`. -/
theorem noop_step_from_idle (strat : SteppingStrategy)
    (sampling : SamplingMode) (interval maxDur : ℚ) (enabled : Bool)
    (s0 : EnvState) (inp : StepInputs)
    (hidle : s0.actionState = ActionState.idle) (hmd : 0 ≤ maxDur)
    (hpolls : ∀ e ∈ inp.polls, inp.startWait ≤ e.tGuard) :
    (executeAction discreteActionMap 0).1 = true ∧
    (stepDiscrete discreteActionMap strat sampling interval maxDur enabled
      s0 0 inp).state.actionState = ActionState.completed ∧
    (stepDiscrete discreteActionMap strat sampling interval maxDur enabled
      s0 0 inp).state.currentAction = none ∧
    (stepDiscrete discreteActionMap strat sampling interval maxDur enabled
      s0 0 inp).state.actionStartTime = none ∧
    (stepDiscrete discreteActionMap strat sampling interval maxDur enabled
      s0 0 inp).state.actionQueue = s0.actionQueue ∧
    (stepDiscrete discreteActionMap strat sampling interval maxDur enabled
      s0 0 inp).obs.actionProgress = 0 := by
  have hne : s0.actionState ≠ ActionState.executing := by
    rw [hidle]
    exact fun hx => nomatch hx
  refine ⟨rfl, ?_⟩
  unfold stepDiscrete
  dsimp only
  rw [updateActionState_of_not_executing discreteActionMap s0 _ _ hne]
  have h2 : ({ s0 with
      currentAnimationPhase := getCurrentAnimationPhase discreteActionMap s0 inp.tPhase } :
      EnvState).actionState ≠ ActionState.executing := hne
  rw [interruptStage_of_not_executing discreteActionMap enabled _ 0
    inp.tCanInt h2]
  rw [dispatchStage_noop ({ s0 with
      currentAnimationPhase := getCurrentAnimationPhase discreteActionMap s0 inp.tPhase } :
      EnvState) inp.now inp.animDispatch (Or.inl hidle)]
  dsimp only
  rw [waitStage_noop strat maxDur _ inp.startWait inp.polls rfl rfl hmd
    hpolls]
  dsimp only
  refine ⟨?_, ?_, ?_, ?_, ?_⟩
  · split <;> rfl
  · split <;> rfl
  · split <;> rfl
  · split <;> rfl
  · rfl

/-- Witness for C4 (amended), at the freshly constructed `Idle` state with
trivial clock inputs. -/
theorem noop_step_from_idle_witness :
    (executeAction discreteActionMap 0).1 = true ∧
    (stepDiscrete discreteActionMap SteppingStrategy.adaptive
      SamplingMode.smart 0.1 3 true initState 0
      zeroInputs).state.actionState = ActionState.completed ∧
    (stepDiscrete discreteActionMap SteppingStrategy.adaptive
      SamplingMode.smart 0.1 3 true initState 0
      zeroInputs).state.currentAction = none ∧
    (stepDiscrete discreteActionMap SteppingStrategy.adaptive
      SamplingMode.smart 0.1 3 true initState 0
      zeroInputs).state.actionStartTime = none ∧
    (stepDiscrete discreteActionMap SteppingStrategy.adaptive
      SamplingMode.smart 0.1 3 true initState 0
      zeroInputs).state.actionQueue = initState.actionQueue ∧
    (stepDiscrete discreteActionMap SteppingStrategy.adaptive
      SamplingMode.smart 0.1 3 true initState 0
      zeroInputs).obs.actionProgress = 0 :=
  noop_step_from_idle SteppingStrategy.adaptive SamplingMode.smart 0.1 3
    true initState zeroInputs rfl (by norm_num)
    (fun e he => nomatch he)

/-- Counterexample to C4 as stated: a `no-op` step from the `Idle`
constructor state returns with lifecycle `Completed`, not `Idle`, so the
`ActionExecutionState` is changed. -/
theorem noop_step_counterexample :
    (stepDiscrete discreteActionMap SteppingStrategy.continuous
      SamplingMode.immediate 1 3 true initState 0
      zeroInputs).state.actionState = ActionState.completed ∧
    (stepDiscrete discreteActionMap SteppingStrategy.continuous
      SamplingMode.immediate 1 3 true initState 0
      zeroInputs).state.actionState ≠ ActionState.idle := by
  constructor
  · rfl
  · intro hx
    exact nomatch hx

/-- C5 (amended): every invocation of `step` in discrete mode performs at
most one call to the input-dispatch collaborator (`client.send_key`) —
zero when the requested action is the `no-op`, has no keybinding, or is
rejected and left pending — zero or more clock-control calls, and exactly
one state-snapshot fetch (`client.get_frame`). -/
theorem step_call_counts (m : ℕ → Option ActionData)
    (strat : SteppingStrategy) (sampling : SamplingMode)
    (interval maxDur : ℚ) (enabled : Bool) (s0 : EnvState) (actionId : ℕ)
    (inp : StepInputs) :
    (stepDiscrete m strat sampling interval maxDur enabled s0 actionId
      inp).dispatchCalls ≤ 1 ∧
    (stepDiscrete m strat sampling interval maxDur enabled s0 actionId
      inp).frameFetches = 1 := by
  unfold stepDiscrete
  dsimp only
  exact ⟨dispatchStage_calls_le_one _ _ _ _ _, rfl⟩

/-- Counterexample to C5 as stated: the `no-op` step makes zero dispatch
calls (`_execute_action` returns before reaching `client.send_key`), not
exactly one. -/
theorem dispatch_count_counterexample :
    (stepDiscrete discreteActionMap SteppingStrategy.continuous
      SamplingMode.immediate 1 3 true initState 0
      zeroInputs).dispatchCalls = 0 ∧
    (stepDiscrete discreteActionMap SteppingStrategy.continuous
      SamplingMode.immediate 1 3 true initState 0
      zeroInputs).dispatchCalls ≠ 1 := by
  exact ⟨rfl, by decide⟩

/-- C9 (amended): constructing the environment performs no validation of
any phase breakdown — the `action_map` parameter is ignored and
construction in discrete mode always succeeds, installing the built-in
catalog — while each definition of the built-in catalog that declares a
breakdown does satisfy `startup + active + recovery = duration`. -/
theorem catalog_no_validation (p : Option (ℕ → Option ActionData)) :
    envInitActionMap "discrete" p =
      Except.ok (InitCatalog.discreteCatalog discreteActionMap) ∧
    ∀ (i : ℕ) (a : ActionData), discreteActionMap i = some a →
      specPhaseInvariant a = true := by
  constructor
  · rfl
  · intro i a h
    have hmem : a ∈ discreteActionList := by
      unfold discreteActionMap at h
      exact List.get?_mem h
    have hall : discreteActionList.all specPhaseInvariant = true := by
      norm_num [discreteActionList, specPhaseInvariant, List.all]
    exact List.all_eq_true.mp hall a hmem

/-- Witness for C9 (amended): construction with no supplied catalog
succeeds, and the built-in `attack` entry satisfies the invariant. -/
theorem catalog_no_validation_witness :
    envInitActionMap "discrete" none =
      Except.ok (InitCatalog.discreteCatalog discreteActionMap) ∧
    specPhaseInvariant ⟨"attack", ActionType.combat, 1.5, false,
      some ⟨0.4, 0.3, 0.8⟩⟩ = true :=
  ⟨(catalog_no_validation none).1, (catalog_no_validation none).2 11 _ rfl⟩

/-- A one-entry catalog whose declared breakdown sums to `1.5`, not its
`duration = 1`. -/
def badCatalog : ℕ → Option ActionData := fun _ =>
  some ⟨"bad", ActionType.combat, 1, false, some ⟨0.5, 0.5, 0.5⟩⟩

/-- Counterexample to C9 as stated: constructing with a catalog containing
a definition whose `startup + active + recovery ≠ duration` does not fail
with any configuration error — the constructor ignores the supplied
catalog and succeeds. -/
theorem catalog_validation_counterexample :
    specPhaseInvariant ⟨"bad", ActionType.combat, 1, false,
      some ⟨0.5, 0.5, 0.5⟩⟩ = false ∧
    envInitActionMap "discrete" (some badCatalog) =
      Except.ok (InitCatalog.discreteCatalog discreteActionMap) := by
  exact ⟨by norm_num [specPhaseInvariant], rfl⟩
